import Mathlib

/-!
Verification of the Voice-Activity Buffering Controller (VABC) described by
the repository specification, as implemented by the transcriber adapters in
`oss_demos/whisper_cpp_transcriber.py`, `oss_demos/high_performance_oss_demo.py`
and `oss_demos/google_sr_transcriber.py`.

Audio chunks are byte lists (each byte a natural number below 256) holding
little-endian 16-bit signed PCM samples.  Wall-clock time is modelled with
the integers (think of a fixed sub-second tick such as a millisecond): each
loop event (a dequeued chunk or a `queue.Empty` timeout) carries the
instant at which the loop body runs, mirroring the code's `time.time()`
reads; the code only ever compares times and durations, so an ordered
discretisation is faithful.  The processing loops are embedded as explicit
step functions on a state record, and a run is a fold of those steps over
an event list, collecting the flushed buffers in order.
-/

/-- Decode one little-endian 16-bit signed sample from two bytes, as
`numpy`/`audioop` interpret the buffers written by the adapters. -/
def toSample (lo hi : ℕ) : ℤ :=
  if lo % 256 + 256 * (hi % 256) < 32768 then
    ((lo % 256 + 256 * (hi % 256) : ℕ) : ℤ)
  else
    ((lo % 256 + 256 * (hi % 256) : ℕ) : ℤ) - 65536

/-- Decode a byte list into its 16-bit samples, two bytes per sample; a
trailing odd byte yields no sample. -/
def decodeSamples : List ℕ → List ℤ
  | lo :: hi :: rest => toSample lo hi :: decodeSamples rest
  | _ => []

/-- Sum of squared samples, as a natural number. -/
def sumSquares (samples : List ℤ) : ℕ :=
  (samples.map (fun s => (s * s).toNat)).sum

/-- Fuel-driven linear search for the integer square root, written with
structural recursion so that the kernel can evaluate it on concrete
inputs; proved equal to `Nat.sqrt` below. -/
def isqrtGo (n : ℕ) : ℕ → ℕ → ℕ
  | 0, k => k
  | fuel + 1, k => if (k + 1) * (k + 1) ≤ n then isqrtGo n fuel (k + 1) else k

/-- Integer square root: the largest `k` with `k * k ≤ n`. -/
def isqrt (n : ℕ) : ℕ := isqrtGo n n 0

/-- RMS of a chunk as computed by `pydub.AudioSegment.rms` (which calls
`audioop.rms`): the integer part of the square root of the mean square.
For an integer `k`, `k ≤ √(a / n)` over the reals iff `k² · n ≤ a` iff
`k² ≤ a / n` with truncated division, so the truncated real computation
equals the integer square root of the truncated mean. -/
def rmsOf (data : List ℕ) : ℕ :=
  isqrt (sumSquares (decodeSamples data) / (decodeSamples data).length)

/-- Configuration of the whisper.cpp adapter's processing loop
(`WhisperCPPTranscriber`).  `chunk_size` and `max_silence_chunks` are the
values derived in `__init__`; the two durations are in clock ticks. -/
structure WhisperCfg where
  sampling_rate : ℕ
  chunk_duration : ℤ
  silence_threshold : ℕ
  min_chunk_duration : ℤ
  chunk_size : ℕ
  max_silence_chunks : ℕ
deriving DecidableEq

/-- State of `_process_audio_loop` in the whisper.cpp adapter: the PCM
payload written to the WAV buffer since the last reset, whether the WAV
header has been written (`audio_buffer.tell() > 0`), `buffer_start_time`,
`has_speech`, and `self.silence_counter`. -/
structure WState where
  payload : List ℕ
  header_written : Bool
  buffer_start_time : ℤ
  has_speech : Bool
  silence_counter : ℕ
deriving DecidableEq

/-- `audio_buffer.tell()`: 0 before any `writeframes`, else 44 header bytes
plus the payload. -/
def wTell (s : WState) : ℕ :=
  if s.header_written then 44 + s.payload.length else 0

/-- `wav_writer.writeframes(audio_data)`: appends the raw bytes and ensures
the header is written (so `tell` becomes positive even for empty data). -/
def wWrite (s : WState) (data : List ℕ) : WState :=
  { s with payload := s.payload ++ data, header_written := true }

/-- The energy classification step: `if rms > silence_threshold` set
`has_speech` and zero the counter, else increment the counter. -/
def wClassify (cfg : WhisperCfg) (s : WState) (data : List ℕ) : WState :=
  if cfg.silence_threshold < rmsOf data then
    { s with has_speech := true, silence_counter := 0 }
  else
    { s with silence_counter := s.silence_counter + 1 }

/-- The `should_process` condition of the whisper.cpp loop:
`(has_speech and silence_counter >= max_silence_chunks and
buffer_duration >= min_chunk_duration) or
buffer_duration >= chunk_duration * 2`, where `buffer_duration` is the
wall-clock time since `buffer_start_time`. -/
def wShouldProcess (cfg : WhisperCfg) (s : WState) (t : ℤ) : Prop :=
  (s.has_speech = true ∧ cfg.max_silence_chunks ≤ s.silence_counter ∧
    cfg.min_chunk_duration ≤ t - s.buffer_start_time) ∨
  cfg.chunk_duration * 2 ≤ t - s.buffer_start_time

instance (cfg : WhisperCfg) (s : WState) (t : ℤ) :
    Decidable (wShouldProcess cfg s t) := by
  unfold wShouldProcess; infer_instance

/-- A fresh buffer state after a flush at time `t`: empty WAV buffer, new
`buffer_start_time`, `has_speech` false, and the given `silence_counter`
value (the chunk-triggered flush writes 0 there; the idle-timeout flush
leaves the field untouched). -/
def wResetBuffer (t : ℤ) (sc : ℕ) : WState :=
  { payload := [], header_written := false, buffer_start_time := t,
    has_speech := false, silence_counter := sc }

/-- One iteration of the whisper.cpp processing loop on a dequeued chunk at
time `t`.  The bytes are written to the WAV buffer first; an odd-length
chunk then makes the energy computation raise, which the loop's generic
handler catches, so classification and the flush check are skipped.  A
flush emits the payload and resets everything including the counter. -/
def wChunkStep (cfg : WhisperCfg) (s : WState) (data : List ℕ) (t : ℤ) :
    WState × Option (List ℕ) :=
  if data.length % 2 = 1 then
    (wWrite s data, none)
  else if wShouldProcess cfg (wClassify cfg (wWrite s data) data) t ∧
      0 < wTell (wClassify cfg (wWrite s data) data) then
    (wResetBuffer t 0, some (wClassify cfg (wWrite s data) data).payload)
  else
    (wClassify cfg (wWrite s data) data, none)

/-- One iteration of the whisper.cpp processing loop on a `queue.Empty`
timeout at time `t`: flush when speech was seen and the buffer is at least
`min_chunk_duration` old; this path does not touch `self.silence_counter`. -/
def wIdleStep (cfg : WhisperCfg) (s : WState) (t : ℤ) :
    WState × Option (List ℕ) :=
  if s.has_speech = true ∧ cfg.min_chunk_duration ≤ t - s.buffer_start_time then
    (wResetBuffer t s.silence_counter, some s.payload)
  else
    (s, none)

/-- An event seen by the whisper.cpp processing loop: a dequeued chunk or a
`queue.Empty` timeout, with the wall-clock instant of the loop body. -/
inductive WEvent where
  | chunk (data : List ℕ) (t : ℤ)
  | idle (t : ℤ)
deriving DecidableEq

/-- Dispatch one event of the whisper.cpp processing loop. -/
def wStep (cfg : WhisperCfg) (s : WState) : WEvent → WState × Option (List ℕ)
  | .chunk data t => wChunkStep cfg s data t
  | .idle t => wIdleStep cfg s t

/-- Run the whisper.cpp processing loop over an event list, collecting the
flushed payloads in order. -/
def wRun (cfg : WhisperCfg) (s : WState) : List WEvent → WState × List (List ℕ)
  | [] => (s, [])
  | e :: es =>
    ((wRun cfg (wStep cfg s e).1 es).1,
      (wStep cfg s e).2.toList ++ (wRun cfg (wStep cfg s e).1 es).2)

/-- The loop's initial state: empty buffer, `buffer_start_time` the instant
the loop starts, no speech, counter 0. -/
def wStart (t0 : ℤ) : WState :=
  { payload := [], header_written := false, buffer_start_time := t0,
    has_speech := false, silence_counter := 0 }

/-- The bytes of all chunk events, in arrival order. -/
def eventBytes : List WEvent → List ℕ
  | [] => []
  | .chunk data _ :: es => data ++ eventBytes es
  | .idle _ :: es => eventBytes es

/-- Configuration of the high-performance demo's processing loop
(`OptimizedGoogleSRTranscriber`). -/
structure HPCfg where
  sampling_rate : ℕ
  energy_threshold : ℕ
  max_silence_chunks : ℕ
deriving DecidableEq

/-- State of `_process_audio_loop` in the high-performance demo: the PCM
payload, `speech_detected`, and `self.silence_counter`.  This copy tracks
no wall-clock time at all. -/
structure HPState where
  payload : List ℕ
  speech_detected : Bool
  silence_counter : ℕ
deriving DecidableEq

/-- `wav_writer.writeframes(audio_data)` in the high-performance loop. -/
def hpWrite (s : HPState) (data : List ℕ) : HPState :=
  { s with payload := s.payload ++ data }

/-- The energy classification step of the high-performance loop:
`if rms > energy_threshold` set `speech_detected` and zero the counter,
else increment the counter. -/
def hpClassify (cfg : HPCfg) (s : HPState) (data : List ℕ) : HPState :=
  if cfg.energy_threshold < rmsOf data then
    { s with speech_detected := true, silence_counter := 0 }
  else
    { s with silence_counter := s.silence_counter + 1 }

/-- One iteration of the high-performance processing loop on a dequeued
chunk: write, classify, and flush exactly when
`speech_detected and silence_counter >= max_silence_chunks` — this copy
has no duration condition and no duration cap. -/
def hpChunkStep (cfg : HPCfg) (s : HPState) (data : List ℕ) :
    HPState × Option (List ℕ) :=
  if data.length % 2 = 1 then
    (hpWrite s data, none)
  else if (hpClassify cfg (hpWrite s data) data).speech_detected = true ∧
      cfg.max_silence_chunks ≤ (hpClassify cfg (hpWrite s data) data).silence_counter then
    (⟨[], false, 0⟩, some (hpClassify cfg (hpWrite s data) data).payload)
  else
    (hpClassify cfg (hpWrite s data) data, none)

/-- One iteration of the high-performance processing loop on `queue.Empty`:
the code is `continue`, so nothing happens and nothing is flushed. -/
def hpIdleStep (s : HPState) : HPState × Option (List ℕ) :=
  (s, none)

/-- An event seen by the high-performance processing loop. -/
inductive HPEvent where
  | chunk (data : List ℕ)
  | idle
deriving DecidableEq

/-- Dispatch one event of the high-performance processing loop. -/
def hpStep (cfg : HPCfg) (s : HPState) : HPEvent → HPState × Option (List ℕ)
  | .chunk data => hpChunkStep cfg s data
  | .idle => hpIdleStep s

/-- Run the high-performance processing loop over an event list. -/
def hpRun (cfg : HPCfg) (s : HPState) :
    List HPEvent → HPState × List (List ℕ)
  | [] => (s, [])
  | e :: es =>
    ((hpRun cfg (hpStep cfg s e).1 es).1,
      (hpStep cfg s e).2.toList ++ (hpRun cfg (hpStep cfg s e).1 es).2)

/-- Initial state of the high-performance processing loop. -/
def hpStart : HPState := ⟨[], false, 0⟩

/-- The bytes of all chunk events of the high-performance loop, in
arrival order. -/
def hpEventBytes : List HPEvent → List ℕ
  | [] => []
  | .chunk data :: es => data ++ hpEventBytes es
  | .idle :: es => hpEventBytes es

/-- One iteration of the whisper.cpp ingestion loop (`_run_loop`): extend
`accumulated_audio` with the received chunk and, if at least `chunk_size`
bytes are available, move exactly the first `chunk_size` bytes to the
processing queue, keeping the rest.  The guard is an `if`, not a loop, so
at most one queue item is produced per received chunk. -/
def runLoopStep (chunk_size : ℕ) (acc : List ℕ) (chunk : List ℕ) :
    List ℕ × Option (List ℕ) :=
  if chunk_size ≤ (acc ++ chunk).length then
    ((acc ++ chunk).drop chunk_size, some ((acc ++ chunk).take chunk_size))
  else
    (acc ++ chunk, none)

/-- Run the whisper.cpp ingestion loop over the received chunks, collecting
the queue items in order. -/
def runLoopFeed (chunk_size : ℕ) (acc : List ℕ) :
    List (List ℕ) → List ℕ × List (List ℕ)
  | [] => (acc, [])
  | c :: cs =>
    ((runLoopFeed chunk_size (runLoopStep chunk_size acc c).1 cs).1,
      (runLoopStep chunk_size acc c).2.toList ++
        (runLoopFeed chunk_size (runLoopStep chunk_size acc c).1 cs).2)

/-- A transcription record as produced at the public output
(`produce_nonblocking(Transcription(...))`); confidence is in percent. -/
structure Transcription where
  message : String
  confidence : ℕ
  is_final : Bool
deriving DecidableEq

/-- Python's `str.strip()` (for ASCII whitespace): drop leading and
trailing whitespace characters, written structurally so the kernel can
evaluate it. -/
def pyStrip (s : String) : String :=
  ⟨((s.data.dropWhile Char.isWhitespace).reverse.dropWhile
      Char.isWhitespace).reverse⟩

/-- `_transcribe_buffer` of the whisper.cpp adapter, with the downstream
recogniser as an oracle.  The first component records whether the
downstream recognition call was made: only when the whole WAV buffer
exceeds the 44-byte header.  A transcription is produced only when the
stripped text is nonempty, with `is_final = True` and confidence 0.98. -/
def whisperTranscribeBuffer (wav_bytes : List ℕ)
    (recognize : List ℕ → String) : Bool × Option Transcription :=
  if 44 < wav_bytes.length then
    if pyStrip (recognize (wav_bytes.drop 44)) ≠ "" then
      (true, some ⟨pyStrip (recognize (wav_bytes.drop 44)), 98, true⟩)
    else
      (true, none)
  else
    (false, none)

/-- The `if text:` production guard shared by the google_sr adapter and the
high-performance demo: a transcription is produced only for nonempty text,
always with `is_final = True`. -/
def produceIfText (text : String) (confidence : ℕ) : Option Transcription :=
  if text ≠ "" then some ⟨text, confidence, true⟩ else none

/-- Poll timeout of the `audio_queue.get` in the whisper.cpp processing
loop, in clock ticks per second 10: `timeout=0.1` becomes 1 tick. -/
def whisperProcessLoopTimeout : Option ℤ := some 1

/-- Poll timeout of the `audio_queue.get` in the high-performance
processing loop: `timeout=0.1`, 1 tick. -/
def hpProcessLoopTimeout : Option ℤ := some 1

/-- Timeout of `input_janus_queue.sync_q.get()` in the whisper.cpp
ingestion loop: none — the wait is unbounded. -/
def whisperRunLoopTimeout : Option ℤ := none

/-- Timeout of `input_janus_queue.sync_q.get()` in the high-performance
ingestion loop: none — the wait is unbounded. -/
def hpRunLoopTimeout : Option ℤ := none

/-- Timeout of `input_janus_queue.sync_q.get()` in the google_sr adapter's
only consumer loop: none — the wait is unbounded. -/
def googleSrRunLoopTimeout : Option ℤ := none

/-- The blocking queue waits of all consumer loops in the three adapters. -/
def consumerLoopTimeouts : List (Option ℤ) :=
  [whisperRunLoopTimeout, whisperProcessLoopTimeout,
   hpRunLoopTimeout, hpProcessLoopTimeout, googleSrRunLoopTimeout]

/-- Whether a blocking `queue.get` with the given timeout returns control
to the loop body when the queue holds no item: only when the timeout is
bounded. -/
def queueGetReturns (timeout : Option ℤ) (queue_has_item : Bool) : Bool :=
  queue_has_item || timeout.isSome

/-- Whether a consumer loop blocked on its queue observes the stop flag
when no further item ever arrives. -/
def loopObservesStopWhenIdle (timeout : Option ℤ) : Bool :=
  queueGetReturns timeout false

set_option maxRecDepth 100000

theorem isqrtGo_spec (n : ℕ) : ∀ (fuel k : ℕ), k * k ≤ n →
    isqrtGo n fuel k * isqrtGo n fuel k ≤ n ∧
      (n < (isqrtGo n fuel k + 1) * (isqrtGo n fuel k + 1) ∨
        isqrtGo n fuel k = k + fuel) := by
  intro fuel
  induction fuel with
  | zero => intro k hk; simp [isqrtGo, hk]
  | succ f ih =>
    intro k hk
    unfold isqrtGo
    split
    · rcases ih (k + 1) (by omega) with ⟨h1, h2⟩
      exact ⟨h1, by omega⟩
    · exact ⟨hk, Or.inl (by omega)⟩

theorem isqrt_eq_sqrt (n : ℕ) : isqrt n = Nat.sqrt n := by
  rcases isqrtGo_spec n n 0 (by omega) with ⟨h1, h2⟩
  have hub : n < (isqrtGo n n 0 + 1) * (isqrtGo n n 0 + 1) := by
    rcases h2 with h | h
    · exact h
    · nlinarith
  unfold isqrt
  exact (Nat.eq_sqrt).2 ⟨h1, hub⟩

/-- C1 (amended): after a chunk-triggered flush of the whisper.cpp loop
(silence-terminated or duration-capped), and after any flush of the
high-performance loop, the buffer is empty and the silence state is at its
initial values; after the whisper.cpp idle-timeout flush the buffer is
empty and speech-seen is false, but the silence-counter keeps its
pre-flush value. -/
theorem c1_flush_reset (cfg : WhisperCfg) (s : WState) (data : List ℕ) (t : ℤ)
    (out : List ℕ) :
    ((wChunkStep cfg s data t).2 = some out →
      (wChunkStep cfg s data t).1.payload = [] ∧
      (wChunkStep cfg s data t).1.has_speech = false ∧
      (wChunkStep cfg s data t).1.silence_counter = 0) ∧
    ((wIdleStep cfg s t).2 = some out →
      (wIdleStep cfg s t).1.payload = [] ∧
      (wIdleStep cfg s t).1.has_speech = false ∧
      (wIdleStep cfg s t).1.silence_counter = s.silence_counter) ∧
    (∀ (hcfg : HPCfg) (hs : HPState),
      (hpChunkStep hcfg hs data).2 = some out →
      (hpChunkStep hcfg hs data).1 = ⟨[], false, 0⟩) := by
  refine ⟨?_, ?_, ?_⟩
  · unfold wChunkStep
    split
    · simp
    · split <;> simp [wResetBuffer]
  · unfold wIdleStep
    split <;> simp [wResetBuffer]
  · intro hcfg hs
    unfold hpChunkStep
    split
    · simp
    · split <;> simp

/-- C1 witness: a concrete chunk-triggered flush, fully reset afterwards. -/
theorem c1_witness :
    (wChunkStep ⟨16000, 100, 300, 0, 64000, 0⟩ (wStart 0) [45, 1] 0).1.payload = [] ∧
    (wChunkStep ⟨16000, 100, 300, 0, 64000, 0⟩ (wStart 0) [45, 1] 0).1.has_speech = false ∧
    (wChunkStep ⟨16000, 100, 300, 0, 64000, 0⟩ (wStart 0) [45, 1] 0).1.silence_counter = 0 :=
  (c1_flush_reset ⟨16000, 100, 300, 0, 64000, 0⟩ (wStart 0) [45, 1] 0 [45, 1]).1
    (by decide)

/-- C1 counterexample: a loud chunk then one quiet chunk leave the
silence-counter at 1; the idle-timeout path then flushes (the emission is
the accumulated four bytes) yet the post-flush silence-counter is still 1,
not the initial 0 the claim requires after every flush. -/
theorem c1_counterexample :
    (wIdleStep ⟨16000, 100, 300, 5, 64000, 2⟩
        (wRun ⟨16000, 100, 300, 5, 64000, 2⟩ (wStart 0)
          [.chunk [45, 1] 0, .chunk [0, 0] 1]).1 5).2 = some [45, 1, 0, 0] ∧
    (wIdleStep ⟨16000, 100, 300, 5, 64000, 2⟩
        (wRun ⟨16000, 100, 300, 5, 64000, 2⟩ (wStart 0)
          [.chunk [45, 1] 0, .chunk [0, 0] 1]).1 5).1.silence_counter = 1 := by
  constructor <;> decide

/-- C4 (amended): for every dequeued chunk both adapters compute rms as the
integer square root of the mean of the squared 16-bit samples, and classify
the chunk as silent iff rms ≤ energy_threshold — the code tests
`rms > threshold` for speech, so a chunk whose rms exactly equals the
threshold IS silent; if not silent the classification sets speech-seen and
resets the silence-counter to 0, and if silent it increments the counter. -/
theorem c4_classification :
    (∀ (cfg : WhisperCfg) (s : WState) (data : List ℕ),
      (rmsOf data ≤ cfg.silence_threshold →
        wClassify cfg s data = { s with silence_counter := s.silence_counter + 1 }) ∧
      (cfg.silence_threshold < rmsOf data →
        wClassify cfg s data = { s with has_speech := true, silence_counter := 0 })) ∧
    (∀ (cfg : HPCfg) (s : HPState) (data : List ℕ),
      (rmsOf data ≤ cfg.energy_threshold →
        hpClassify cfg s data = { s with silence_counter := s.silence_counter + 1 }) ∧
      (cfg.energy_threshold < rmsOf data →
        hpClassify cfg s data = { s with speech_detected := true, silence_counter := 0 })) ∧
    (∀ data : List ℕ,
      rmsOf data =
        Nat.sqrt (sumSquares (decodeSamples data) / (decodeSamples data).length)) := by
  refine ⟨?_, ?_, ?_⟩
  · intro cfg s data
    constructor
    · intro h; unfold wClassify; rw [if_neg (by omega)]
    · intro h; unfold wClassify; rw [if_pos h]
  · intro cfg s data
    constructor
    · intro h; unfold hpClassify; rw [if_neg (by omega)]
    · intro h; unfold hpClassify; rw [if_pos h]
  · intro data
    unfold rmsOf
    exact isqrt_eq_sqrt _

/-- C4 witness: a one-sample chunk of value 301 against threshold 300 is
classified as speech: speech-seen set, counter reset. -/
theorem c4_witness :
    wClassify ⟨16000, 100, 300, 5, 64000, 2⟩ (wStart 0) [45, 1] =
      { wStart 0 with has_speech := true, silence_counter := 0 } :=
  ((c4_classification.1 ⟨16000, 100, 300, 5, 64000, 2⟩ (wStart 0) [45, 1])).2
    (by decide)

/-- C4 counterexample: a chunk whose rms exactly equals the threshold (one
sample of value 500, threshold 500) is classified as silent by the code
(counter incremented, speech-seen untouched), whereas the claim's
`is_silent = rms < energy_threshold` would classify it as speech. -/
theorem c4_counterexample :
    rmsOf [244, 1] = 500 ∧
    ¬ (500 < 500) ∧
    (wClassify ⟨16000, 100, 500, 5, 64000, 2⟩ (wStart 0) [244, 1]).silence_counter = 1 ∧
    (wClassify ⟨16000, 100, 500, 5, 64000, 2⟩ (wStart 0) [244, 1]).has_speech = false := by
  refine ⟨by decide, by decide, by decide, by decide⟩

/-- C5 (amended): an odd-length chunk is appended to the WAV buffer by
`writeframes` before the energy computation raises; the raised exception
is caught by the loop's generic handler, so the SilenceState is unchanged,
nothing is flushed, processing continues and no exception propagates — but
the UtteranceBuffer byte length DOES grow by the malformed chunk's length,
in both adapters. -/
theorem c5_malformed (cfg : WhisperCfg) (s : WState) (data : List ℕ) (t : ℤ)
    (hodd : data.length % 2 = 1) :
    wChunkStep cfg s data t =
      ({ s with payload := s.payload ++ data, header_written := true }, none) ∧
    (∀ (hcfg : HPCfg) (hs : HPState),
      hpChunkStep hcfg hs data = ({ hs with payload := hs.payload ++ data }, none)) := by
  constructor
  · unfold wChunkStep; rw [if_pos hodd]; rfl
  · intro hcfg hs; unfold hpChunkStep; rw [if_pos hodd]; rfl

/-- C5 witness: processing the odd chunk `[7]` appends it, flushes nothing,
and leaves the silence state alone. -/
theorem c5_witness :
    wChunkStep ⟨16000, 100, 300, 5, 64000, 2⟩ (wStart 0) [7] 0 =
      ({ wStart 0 with
          payload := (wStart 0).payload ++ [7]
          header_written := true }, none) :=
  (c5_malformed ⟨16000, 100, 300, 5, 64000, 2⟩ (wStart 0) [7] 0 (by decide)).1

/-- C5 counterexample: the claim says an odd-length chunk leaves the
UtteranceBuffer byte length unchanged; in fact processing `[7]` from an
empty buffer grows the buffered payload from 0 to 1 bytes. -/
theorem c5_counterexample :
    (wChunkStep ⟨16000, 100, 300, 5, 64000, 2⟩ (wStart 0) [7] 0).1.payload.length = 1 ∧
    (wStart 0).payload.length = 0 :=
  ⟨by decide, by decide⟩

/-- C2 (amended): in the whisper.cpp loop, a dequeued well-formed chunk
triggers a flush exactly when, after classification, speech-seen is true
AND silence-counter ≥ max_silence_chunks AND elapsed ≥ min_chunk_duration,
OR elapsed ≥ chunk_duration * 2; in particular a silence-terminated flush
cannot fire before min_chunk_duration.  In the high-performance loop the
flush fires exactly when speech-seen is true AND silence-counter ≥
max_silence_chunks, with no duration condition at all. -/
theorem c2_flush_condition :
    (∀ (cfg : WhisperCfg) (s : WState) (data : List ℕ) (t : ℤ),
      data.length % 2 = 0 →
      ((wChunkStep cfg s data t).2.isSome = true ↔
        ((wClassify cfg (wWrite s data) data).has_speech = true ∧
          cfg.max_silence_chunks ≤
            (wClassify cfg (wWrite s data) data).silence_counter ∧
          cfg.min_chunk_duration ≤ t - s.buffer_start_time) ∨
        cfg.chunk_duration * 2 ≤ t - s.buffer_start_time)) ∧
    (∀ (cfg : HPCfg) (s : HPState) (data : List ℕ),
      data.length % 2 = 0 →
      ((hpChunkStep cfg s data).2.isSome = true ↔
        ((hpClassify cfg (hpWrite s data) data).speech_detected = true ∧
          cfg.max_silence_chunks ≤
            (hpClassify cfg (hpWrite s data) data).silence_counter))) := by
  constructor
  · intro cfg s data t heven
    have hbst : (wClassify cfg (wWrite s data) data).buffer_start_time =
        s.buffer_start_time := by
      unfold wClassify wWrite; split <;> rfl
    have htell : 0 < wTell (wClassify cfg (wWrite s data) data) := by
      unfold wTell wClassify wWrite; split <;> simp
    have hsp : wShouldProcess cfg (wClassify cfg (wWrite s data) data) t ↔
        ((wClassify cfg (wWrite s data) data).has_speech = true ∧
          cfg.max_silence_chunks ≤
            (wClassify cfg (wWrite s data) data).silence_counter ∧
          cfg.min_chunk_duration ≤ t - s.buffer_start_time) ∨
        cfg.chunk_duration * 2 ≤ t - s.buffer_start_time := by
      unfold wShouldProcess; rw [hbst]
    unfold wChunkStep
    rw [if_neg (by omega)]
    by_cases h : wShouldProcess cfg (wClassify cfg (wWrite s data) data) t
    · rw [if_pos ⟨h, htell⟩]
      simpa using hsp.mp h
    · rw [if_neg (fun hc => h hc.1)]
      simpa using fun hc => h (hsp.mpr hc)
  · intro cfg s data heven
    unfold hpChunkStep
    rw [if_neg (by omega)]
    by_cases h : (hpClassify cfg (hpWrite s data) data).speech_detected = true ∧
        cfg.max_silence_chunks ≤ (hpClassify cfg (hpWrite s data) data).silence_counter
    · rw [if_pos h]
      simpa using h
    · rw [if_neg h]
      simpa using fun hc => h hc

/-- C2 witness: with min_chunk_duration 1, max_silence_chunks 1, speech
already seen, a quiet chunk at elapsed time 2 satisfies the
silence-terminated condition and the step flushes. -/
theorem c2_witness :
    (wChunkStep ⟨16000, 100, 300, 1, 64000, 1⟩
      { wStart 0 with has_speech := true } [0, 0] 2).2.isSome = true :=
  (c2_flush_condition.1 ⟨16000, 100, 300, 1, 64000, 1⟩
      { wStart 0 with has_speech := true } [0, 0] 2 (by decide)).mpr
    (Or.inl ⟨by decide, by decide, by decide⟩)

/-- C2 counterexample: the high-performance loop flushes after one loud
and two quiet one-sample chunks — an utterance of 6 bytes, i.e. 3 samples
(about 0.2 ms at 16 kHz), far below any positive minimum duration — so a
flush can occur before min_utterance_duration has elapsed. -/
theorem c2_counterexample :
    (hpRun ⟨16000, 300, 2⟩ hpStart
        [.chunk [45, 1], .chunk [0, 0], .chunk [0, 0]]).2 =
      [[45, 1, 0, 0, 0, 0]] ∧
    6 < 16000 :=
  ⟨by decide, by decide⟩

/-- C3 (amended): in the whisper.cpp loop, while every chunk stays below
the threshold speech-seen remains false, a chunk flushes iff the elapsed
time has reached the cap chunk_duration * 2, the idle path never flushes
without speech, and a well-formed chunk arriving past the cap always
flushes regardless of the silence-counter and speech-seen.  (The
high-performance loop has no duration cap: all-silent input never
flushes there.) -/
theorem c3_silent_cap :
    (∀ (cfg : WhisperCfg) (s : WState) (data : List ℕ) (t : ℤ),
      data.length % 2 = 0 → rmsOf data < cfg.silence_threshold →
      s.has_speech = false →
      ((wChunkStep cfg s data t).1.has_speech = false ∧
        ((wChunkStep cfg s data t).2.isSome = true ↔
          cfg.chunk_duration * 2 ≤ t - s.buffer_start_time))) ∧
    (∀ (cfg : WhisperCfg) (s : WState) (t : ℤ),
      s.has_speech = false → wIdleStep cfg s t = (s, none)) ∧
    (∀ (cfg : WhisperCfg) (s : WState) (data : List ℕ) (t : ℤ),
      data.length % 2 = 0 → cfg.chunk_duration * 2 ≤ t - s.buffer_start_time →
      (wChunkStep cfg s data t).2.isSome = true) := by
  refine ⟨?_, ?_, ?_⟩
  · intro cfg s data t heven hquiet hns
    have hclass : wClassify cfg (wWrite s data) data =
        { wWrite s data with silence_counter := (wWrite s data).silence_counter + 1 } := by
      unfold wClassify; rw [if_neg (by omega)]
    have hbst : (wClassify cfg (wWrite s data) data).buffer_start_time =
        s.buffer_start_time := by rw [hclass]; rfl
    have hspq : (wClassify cfg (wWrite s data) data).has_speech = false := by
      rw [hclass]; simpa [wWrite] using hns
    have htell : 0 < wTell (wClassify cfg (wWrite s data) data) := by
      unfold wTell wClassify wWrite; split <;> simp
    unfold wChunkStep
    rw [if_neg (by omega)]
    by_cases h : wShouldProcess cfg (wClassify cfg (wWrite s data) data) t
    · rcases h with hA | hB
      · rw [hspq] at hA; simp at hA
      · rw [if_pos ⟨Or.inr hB, htell⟩]
        constructor
        · rfl
        · rw [hbst] at hB; simpa using hB
    · rw [if_neg (fun hc => h hc.1)]
      refine ⟨hspq, iff_of_false (by simp) ?_⟩
      intro hB
      exact h (Or.inr (by rw [hbst]; exact hB))
  · intro cfg s t hns
    unfold wIdleStep
    rw [if_neg (by simp [hns])]
  · intro cfg s data t heven hB
    have hbst : (wClassify cfg (wWrite s data) data).buffer_start_time =
        s.buffer_start_time := by
      unfold wClassify wWrite; split <;> rfl
    have htell : 0 < wTell (wClassify cfg (wWrite s data) data) := by
      unfold wTell wClassify wWrite; split <;> simp
    unfold wChunkStep
    rw [if_neg (by omega), if_pos ⟨Or.inr (by rw [hbst]; exact hB), htell⟩]
    rfl

/-- C3 witness: a quiet chunk before the cap does not set speech-seen; a
chunk arriving once the elapsed time reaches the cap (200 ticks with
chunk_duration 100) flushes. -/
theorem c3_witness :
    (wChunkStep ⟨16000, 100, 300, 5, 64000, 2⟩ (wStart 0) [0, 0] 0).1.has_speech = false ∧
    (wChunkStep ⟨16000, 100, 300, 5, 64000, 2⟩ (wStart 0) [0, 0] 300).2.isSome = true :=
  ⟨(c3_silent_cap.1 ⟨16000, 100, 300, 5, 64000, 2⟩ (wStart 0) [0, 0] 0
      (by decide) (by decide) rfl).1,
   c3_silent_cap.2.2 ⟨16000, 100, 300, 5, 64000, 2⟩ (wStart 0) [0, 0] 300
      (by decide) (by decide)⟩

/-- C3 counterexample: in the high-performance loop five all-quiet
one-sample chunks (5 seconds of audio at sampling rate 1, beyond the
whisper default 4-second cap) produce no flush at all — that loop has no
max_utterance_duration condition, so reaching any duration cap does not
flush. -/
theorem c3_counterexample :
    (hpRun ⟨1, 300, 2⟩ hpStart (List.replicate 5 (HPEvent.chunk [0, 0]))).2 = [] ∧
    (hpRun ⟨1, 300, 2⟩ hpStart
        (List.replicate 5 (HPEvent.chunk [0, 0]))).1.payload.length = 10 := by
  constructor <;> decide

theorem wClassify_payload (cfg : WhisperCfg) (s : WState) (data : List ℕ) :
    (wClassify cfg s data).payload = s.payload := by
  unfold wClassify; split <;> rfl

theorem wStep_bytes (cfg : WhisperCfg) (s : WState) (e : WEvent) :
    (wStep cfg s e).2.toList.flatten ++ (wStep cfg s e).1.payload =
      s.payload ++ eventBytes [e] := by
  cases e with
  | chunk data t =>
    show (wChunkStep cfg s data t).2.toList.flatten ++
        (wChunkStep cfg s data t).1.payload = _
    unfold wChunkStep
    split
    · simp [wWrite, eventBytes]
    · split
      · simp [wResetBuffer, wClassify_payload, wWrite, eventBytes]
      · simp [wClassify_payload, wWrite, eventBytes]
  | idle t =>
    show (wIdleStep cfg s t).2.toList.flatten ++ (wIdleStep cfg s t).1.payload = _
    unfold wIdleStep
    split <;> simp [wResetBuffer, eventBytes]

theorem eventBytes_cons (e : WEvent) (es : List WEvent) :
    eventBytes (e :: es) = eventBytes [e] ++ eventBytes es := by
  cases e <;> simp [eventBytes]

theorem wRun_bytes (cfg : WhisperCfg) (s : WState) (events : List WEvent) :
    ((wRun cfg s events).2).flatten ++ (wRun cfg s events).1.payload =
      s.payload ++ eventBytes events := by
  induction events generalizing s with
  | nil => simp [wRun, eventBytes]
  | cons e es ih =>
    have hstep := wStep_bytes cfg s e
    have hE := eventBytes_cons e es
    show ((wStep cfg s e).2.toList ++ (wRun cfg (wStep cfg s e).1 es).2).flatten ++
        (wRun cfg (wStep cfg s e).1 es).1.payload = _
    rw [List.flatten_append, List.append_assoc, ih, ← List.append_assoc, hstep, hE,
      List.append_assoc]

theorem hpClassify_payload (cfg : HPCfg) (s : HPState) (data : List ℕ) :
    (hpClassify cfg s data).payload = s.payload := by
  unfold hpClassify; split <;> rfl

theorem hpStep_bytes (cfg : HPCfg) (s : HPState) (e : HPEvent) :
    (hpStep cfg s e).2.toList.flatten ++ (hpStep cfg s e).1.payload =
      s.payload ++ hpEventBytes [e] := by
  cases e with
  | chunk data =>
    show (hpChunkStep cfg s data).2.toList.flatten ++
        (hpChunkStep cfg s data).1.payload = _
    unfold hpChunkStep
    split
    · simp [hpWrite, hpEventBytes]
    · split
      · simp [hpClassify_payload, hpWrite, hpEventBytes]
      · simp [hpClassify_payload, hpWrite, hpEventBytes]
  | idle => simp [hpStep, hpIdleStep, hpEventBytes]

theorem hpEventBytes_cons (e : HPEvent) (es : List HPEvent) :
    hpEventBytes (e :: es) = hpEventBytes [e] ++ hpEventBytes es := by
  cases e <;> simp [hpEventBytes]

theorem hpRun_bytes (cfg : HPCfg) (s : HPState) (events : List HPEvent) :
    ((hpRun cfg s events).2).flatten ++ (hpRun cfg s events).1.payload =
      s.payload ++ hpEventBytes events := by
  induction events generalizing s with
  | nil => simp [hpRun, hpEventBytes]
  | cons e es ih =>
    have hstep := hpStep_bytes cfg s e
    have hE := hpEventBytes_cons e es
    show ((hpStep cfg s e).2.toList ++ (hpRun cfg (hpStep cfg s e).1 es).2).flatten ++
        (hpRun cfg (hpStep cfg s e).1 es).1.payload = _
    rw [List.flatten_append, List.append_assoc, ih, ← List.append_assoc, hstep, hE,
      List.append_assoc]

/-- C6: both processing loops consume events strictly in arrival order and
conserve bytes: over any event list, the concatenation of the flushed
buffers followed by the bytes still buffered equals the initial buffer
contents followed by the concatenation, in arrival order, of all chunk
bytes — hence every emitted buffer is exactly the concatenation, in
submission order, of the chunks accumulated since the previous flush. -/
theorem c6_order_preserved :
    (∀ (cfg : WhisperCfg) (s : WState) (events : List WEvent),
      ((wRun cfg s events).2).flatten ++ (wRun cfg s events).1.payload =
        s.payload ++ eventBytes events) ∧
    (∀ (cfg : HPCfg) (s : HPState) (events : List HPEvent),
      ((hpRun cfg s events).2).flatten ++ (hpRun cfg s events).1.payload =
        s.payload ++ hpEventBytes events) :=
  ⟨wRun_bytes, hpRun_bytes⟩

theorem runLoopStep_bytes (chunk_size : ℕ) (acc c : List ℕ) :
    (runLoopStep chunk_size acc c).2.toList.flatten ++
      (runLoopStep chunk_size acc c).1 = acc ++ c := by
  unfold runLoopStep; split <;> simp [List.take_append_drop]

/-- C9: the whisper.cpp ingestion loop re-chunks its input before energy
evaluation: every buffer placed on the internal processing queue has byte
length exactly chunk_size, and the queued buffers followed by the bytes
still held in the accumulator equal the initial accumulator followed by
all received bytes in arrival order, so trailing bytes short of a full
chunk stay in the accumulator until later input completes a chunk. -/
theorem c9_rechunk (chunk_size : ℕ) (acc : List ℕ) (inputs : List (List ℕ)) :
    (∀ q ∈ (runLoopFeed chunk_size acc inputs).2, q.length = chunk_size) ∧
    ((runLoopFeed chunk_size acc inputs).2).flatten ++
        (runLoopFeed chunk_size acc inputs).1 =
      acc ++ inputs.flatten := by
  induction inputs generalizing acc with
  | nil => simp [runLoopFeed]
  | cons c cs ih =>
    constructor
    · intro q hq
      have hq2 : q ∈ (runLoopStep chunk_size acc c).2.toList ++
          (runLoopFeed chunk_size (runLoopStep chunk_size acc c).1 cs).2 := hq
      rcases List.mem_append.mp hq2 with h | h
      · unfold runLoopStep at h
        split at h
        · rename_i hge
          simp only [Option.toList_some, List.mem_singleton] at h
          subst h
          simp only [List.length_take]
          omega
        · simp at h
      · exact (ih _).1 q h
    · show ((runLoopStep chunk_size acc c).2.toList ++
          (runLoopFeed chunk_size (runLoopStep chunk_size acc c).1 cs).2).flatten ++
          (runLoopFeed chunk_size (runLoopStep chunk_size acc c).1 cs).1 = _
      rw [List.flatten_append, List.append_assoc, (ih _).2, ← List.append_assoc,
        runLoopStep_bytes]
      simp [List.append_assoc, List.flatten_cons]

/-- C9 witness: feeding one 5-byte input with chunk_size 4 queues exactly
one 4-byte buffer and keeps the trailing byte in the accumulator. -/
theorem c9_witness :
    ([1, 2, 3, 4] : List ℕ).length = 4 ∧
    ((runLoopFeed 4 [] [[1, 2, 3, 4, 5]]).2).flatten ++
        (runLoopFeed 4 [] [[1, 2, 3, 4, 5]]).1 =
      [] ++ [[1, 2, 3, 4, 5]].flatten :=
  ⟨(c9_rechunk 4 [] [[1, 2, 3, 4, 5]]).1 [1, 2, 3, 4] (by decide),
   (c9_rechunk 4 [] [[1, 2, 3, 4, 5]]).2⟩

/-- C7 (amended): in the whisper.cpp loop, finding the queue empty while
speech-seen is true and at least min_chunk_duration has elapsed since the
buffer started flushes the buffer with the same emission, buffer reset and
speech-seen reset as a silence-terminated flush, but unlike that flush it
leaves the silence-counter unchanged; the high-performance loop ignores
queue-empty timeouts entirely and never flushes there. -/
theorem c7_idle_flush :
    (∀ (cfg : WhisperCfg) (s : WState) (t : ℤ),
      s.has_speech = true → cfg.min_chunk_duration ≤ t - s.buffer_start_time →
      (wIdleStep cfg s t).2 = some s.payload ∧
      (wIdleStep cfg s t).1.payload = [] ∧
      (wIdleStep cfg s t).1.has_speech = false ∧
      (wIdleStep cfg s t).1.silence_counter = s.silence_counter) ∧
    (∀ s : HPState, hpIdleStep s = (s, none)) := by
  constructor
  · intro cfg s t hsp hd
    unfold wIdleStep
    rw [if_pos ⟨hsp, hd⟩]
    exact ⟨rfl, rfl, rfl, rfl⟩
  · intro s; rfl

/-- C7 witness: a concrete idle-timeout flush of a two-byte buffer with
speech seen and 9 ticks elapsed against min_chunk_duration 5. -/
theorem c7_witness :
    (wIdleStep ⟨16000, 100, 300, 5, 64000, 2⟩
        { wStart 0 with payload := [1, 2], has_speech := true } 9).2 = some [1, 2] ∧
    (wIdleStep ⟨16000, 100, 300, 5, 64000, 2⟩
        { wStart 0 with payload := [1, 2], has_speech := true } 9).1.payload = [] ∧
    (wIdleStep ⟨16000, 100, 300, 5, 64000, 2⟩
        { wStart 0 with payload := [1, 2], has_speech := true } 9).1.has_speech = false ∧
    (wIdleStep ⟨16000, 100, 300, 5, 64000, 2⟩
        { wStart 0 with payload := [1, 2], has_speech := true } 9).1.silence_counter =
      ({ wStart 0 with payload := [1, 2], has_speech := true } : WState).silence_counter :=
  c7_idle_flush.1 ⟨16000, 100, 300, 5, 64000, 2⟩
    { wStart 0 with payload := [1, 2], has_speech := true } 9 rfl (by decide)

/-- C7 counterexample: in the high-performance loop a queue-empty timeout
with speech already seen and a nonempty buffer flushes nothing and leaves
the state untouched, contradicting the claim that every consumer performs
an idle-timeout flush. -/
theorem c7_counterexample :
    (⟨[45, 1], true, 0⟩ : HPState).speech_detected = true ∧
    hpIdleStep ⟨[45, 1], true, 0⟩ = (⟨[45, 1], true, 0⟩, none) :=
  ⟨rfl, rfl⟩

/-- C8 (amended): the stop flag is observed at each iteration boundary and
the two processing loops wait on their queues with a bounded 0.1 s poll
timeout (so they observe shutdown within one poll interval even when
idle), but all three ingestion-side consumer loops call the queue get with
no timeout, so when the input queue stays empty they block indefinitely
and never observe the stop flag. -/
theorem c8_stop_observation :
    loopObservesStopWhenIdle whisperProcessLoopTimeout = true ∧
    loopObservesStopWhenIdle hpProcessLoopTimeout = true ∧
    loopObservesStopWhenIdle whisperRunLoopTimeout = false ∧
    loopObservesStopWhenIdle hpRunLoopTimeout = false ∧
    loopObservesStopWhenIdle googleSrRunLoopTimeout = false ∧
    whisperProcessLoopTimeout = some 1 ∧
    hpProcessLoopTimeout = some 1 :=
  ⟨rfl, rfl, rfl, rfl, rfl, rfl, rfl⟩

/-- C8 counterexample: the google_sr consumer loop's queue wait is one of
the consumer-loop waits and has no bounded timeout, so that loop does not
observe the stop flag while blocked on an empty queue — the claim that
every blocking queue wait uses a bounded poll timeout is false. -/
theorem c8_counterexample :
    googleSrRunLoopTimeout ∈ consumerLoopTimeouts ∧
    loopObservesStopWhenIdle googleSrRunLoopTimeout = false := by
  constructor
  · simp [consumerLoopTimeouts]
  · rfl

/-- C10: a flush invokes the downstream recognition call iff the
accumulated WAV data exceeds the 44-byte header (so an empty buffer emits
nothing downstream), and every Transcription produced at the public output
— by the whisper.cpp adapter and by the `if text:` guard shared by the
google_sr and high-performance adapters — has is_final = true and a
nonempty message. -/
theorem c10_output_guard :
    (∀ (b : List ℕ) (r : List ℕ → String),
      (whisperTranscribeBuffer b r).1 = true ↔ 44 < b.length) ∧
    (∀ r : List ℕ → String, whisperTranscribeBuffer [] r = (false, none)) ∧
    (∀ (b : List ℕ) (r : List ℕ → String) (tr : Transcription),
      (whisperTranscribeBuffer b r).2 = some tr →
      tr.is_final = true ∧ tr.message ≠ "") ∧
    (∀ (text : String) (conf : ℕ) (tr : Transcription),
      produceIfText text conf = some tr →
      tr.is_final = true ∧ tr.message ≠ "") := by
  refine ⟨?_, ?_, ?_, ?_⟩
  · intro b r
    unfold whisperTranscribeBuffer
    split
    · rename_i h
      split <;> simpa using h
    · rename_i h
      simpa using h
  · intro r; rfl
  · intro b r tr h
    unfold whisperTranscribeBuffer at h
    split at h
    · split at h
      · rename_i hne
        simp only [] at h
        injection h with h2
        subst h2
        exact ⟨rfl, hne⟩
      · simp at h
    · simp at h
  · intro text conf tr h
    unfold produceIfText at h
    split at h
    · rename_i hne
      injection h with h2
      subst h2
      exact ⟨rfl, hne⟩
    · simp at h

/-- C10 witness: a 46-byte buffer whose recognition returns a blank-padded
text triggers the downstream call and yields a final, nonempty
transcription, while an empty buffer calls nothing and emits nothing. -/
theorem c10_witness :
    (whisperTranscribeBuffer (List.replicate 46 0) (fun _ => " hi ")).1 = true ∧
    (44 < (List.replicate 46 (0 : ℕ)).length) ∧
    ((⟨"hi", 98, true⟩ : Transcription).is_final = true ∧
      (⟨"hi", 98, true⟩ : Transcription).message ≠ "") ∧
    whisperTranscribeBuffer [] (fun _ => " hi ") = (false, none) :=
  ⟨(c10_output_guard.1 (List.replicate 46 0) (fun _ => " hi ")).mpr (by decide),
   by decide,
   c10_output_guard.2.2.1 (List.replicate 46 0) (fun _ => " hi ") ⟨"hi", 98, true⟩
     (by decide),
   c10_output_guard.2.1 (fun _ => " hi ")⟩
